import Mathlib

/-!
Verification of the streaming CSV ingestion core of `mcmc_io.c`.

The repository reads delimited text through the external libcsv tokenizer,
which invokes a field callback (`cb1` / `contacts_cb1`) for every field and a
record callback (`cb2` / `contacts_cb2`) at every line boundary.  We embed the
callback layer and the driver post-processing shallowly: the tokenizer is
abstracted as a list of events (one per field / record boundary), C arrays of
capacity `n` become lists of length `n` over `Option` (a cell is `none` while
uninitialized), `size_t` / `int` counters become `Nat` (the counters only grow
by single increments or doubling, so 64-bit wraparound is unreachable for any
input the program can process), and allocation is assumed to succeed (the C
code either aborts on `malloc` failure or, in `cb2`, ignores the `realloc`
result).  `errno` is modelled as an output of the `strtol` / `strtod` call
itself.

The libc numeric parsers are modelled from their C semantics: skip leading
whitespace, an optional sign, then the longest digit string (for `strtod`
also an optional fraction and a well-formed optional exponent); when nothing
parses the end pointer equals the start pointer (zero characters consumed) and
the value is zero.  `strtod` values are represented exactly as rationals
(rounding to binary64 is irrelevant to the properties proved here; hex floats
and inf/nan spellings, which never occur in these data files, are not
modelled).
-/

/-- Characters treated as whitespace by `strtol` / `strtod` in the C locale. -/
def isSpaceC (c : Char) : Bool :=
  c = ' ' || c = '\t' || c = '\n' || c = '\x0b' || c = '\x0c' || c = '\r'

/-- Value of a string of decimal digits, most significant first. -/
def digitsVal (ds : List Char) : Nat :=
  ds.foldl (fun a c => 10 * a + (c.toNat - 48)) 0

def LONG_MAX : Int := 2 ^ 63 - 1

def LONG_MIN : Int := -(2 ^ 63)

def INT_MAX : Int := 2 ^ 31 - 1

def INT_MIN : Int := -(2 ^ 31)

/-- Result of a modelled `strtol` / `strtod` call: the converted value, the
number of characters consumed (`endptr - str`), and whether the call set
`errno` to `ERANGE`. -/
structure StrtolOut where
  value : Int
  consumed : Nat
  rangeErr : Bool

/-- Model of C `strtol(str, &cursor, 10)` on a string of length
`s.length`: optional whitespace, optional sign, longest run of decimal
digits.  If no digit is found the cursor is reset to the start (zero
consumed) and the value is `0`; on overflow of `long` the value is clamped
and `ERANGE` is reported. -/
def strtol (s : List Char) : StrtolOut :=
  let ws := s.takeWhile isSpaceC
  let r1 := s.drop ws.length
  let sp :=
    match r1 with
    | '-' :: t => (true, t, 1)
    | '+' :: t => (false, t, 1)
    | _ => (false, r1, 0)
  let ds := sp.2.1.takeWhile Char.isDigit
  if ds.length = 0 then
    { value := 0, consumed := 0, rangeErr := false }
  else
    let raw : Int := if sp.1 then -(digitsVal ds : Int) else (digitsVal ds : Int)
    { value := max LONG_MIN (min LONG_MAX raw),
      consumed := ws.length + sp.2.2 + ds.length,
      rangeErr := decide (raw < LONG_MIN ∨ LONG_MAX < raw) }

/-- Embedding of `parse_int_error_check` (src/mcmc_io.c): returns the pair
(return value, error slot after the call).  The C function writes `*err_p`
only on the two error branches, so on success the slot keeps `errIn`. -/
def parse_int_error_check (s : List Char) (errIn : Nat) (len : Nat) : Int × Nat :=
  let r := strtol s
  if r.consumed ≠ len then
    (0, 1)
  else if r.rangeErr ∨ r.value < INT_MIN ∨ INT_MAX < r.value then
    (0, 2)
  else
    (r.value, errIn)

/-- Largest finite binary64 value, exactly. -/
def DBL_MAX_Q : ℚ := (2 ^ 53 - 1) * 2 ^ 971

/-- Result of a modelled `strtod` call. -/
structure StrtodOut where
  value : ℚ
  consumed : Nat
  rangeErr : Bool

/-- Model of C `strtod(str, &cursor)`: optional whitespace, optional sign,
digits with optional fraction (at least one digit overall), and an optional
exponent that is consumed only when it contains at least one digit.  No
conversion leaves the cursor at the start with value `0`.  `ERANGE` models
magnitude overflow beyond the binary64 range. -/
def strtod (s : List Char) : StrtodOut :=
  let ws := s.takeWhile isSpaceC
  let r1 := s.drop ws.length
  let sp :=
    match r1 with
    | '-' :: t => (true, t, 1)
    | '+' :: t => (false, t, 1)
    | _ => (false, r1, 0)
  let d1 := sp.2.1.takeWhile Char.isDigit
  let r3 := sp.2.1.drop d1.length
  let fp :=
    match r3 with
    | '.' :: t => (t.takeWhile Char.isDigit, 1)
    | _ => ([], 0)
  if d1.length + fp.1.length = 0 then
    { value := 0, consumed := 0, rangeErr := false }
  else
    let r4 := r3.drop (fp.2 + fp.1.length)
    let ep :=
      match r4 with
      | c :: t =>
        if c = 'e' ∨ c = 'E' then
          let esp :=
            match t with
            | '-' :: u => (true, u, 1)
            | '+' :: u => (false, u, 1)
            | _ => (false, t, 0)
          let ed := esp.2.1.takeWhile Char.isDigit
          if ed.length = 0 then ((0 : Int), 0)
          else
            (if esp.1 then -(digitsVal ed : Int) else (digitsVal ed : Int),
             1 + esp.2.2 + ed.length)
        else ((0 : Int), 0)
      | [] => ((0 : Int), 0)
    let mag : ℚ := (digitsVal (d1 ++ fp.1) : ℚ) / (10 : ℚ) ^ fp.1.length * (10 : ℚ) ^ ep.1
    let v : ℚ := if sp.1 then -mag else mag
    { value := v,
      consumed := ws.length + sp.2.2 + d1.length + fp.2 + fp.1.length + ep.2,
      rangeErr := decide (v < -DBL_MAX_Q ∨ DBL_MAX_Q < v) }

/-- Embedding of `parse_double_error_check` (src/mcmc_io.c): returns the pair
(return value, error slot after the call). -/
def parse_double_error_check (s : List Char) (errIn : Nat) (len : Nat) : ℚ × Nat :=
  let r := strtod s
  if r.consumed ≠ len then
    (0, 1)
  else if r.rangeErr then
    (0, 2)
  else
    (r.value, errIn)

/-- The `ILIinput` struct (src/mcmc_io.h): three parallel `int` arrays with a
logical element count.  Each list has length equal to the allocated capacity;
`none` marks a cell `malloc`/`realloc` produced but no callback ever wrote. -/
structure ILIinput where
  size : Nat
  year : List (Option Int)
  week : List (Option Int)
  estInc : List (Option Int)
deriving DecidableEq

/-- C `realloc` of an array modelled on lists: keep the first `n` cells,
extend with uninitialized cells when growing. -/
def resizeArr {α : Type} (l : List (Option α)) (n : Nat) : List (Option α) :=
  l.take n ++ List.replicate (n - l.length) none

/-- Embedding of `realloc_ili_input` (src/mcmc_io.c): reallocates the three
arrays to `new_capacity` slots each (allocation success assumed; `cb2`
ignores the return code anyway). -/
def realloc_ili_input (d : ILIinput) (new_capacity : Nat) : ILIinput :=
  { d with
    year := resizeArr d.year new_capacity,
    week := resizeArr d.week new_capacity,
    estInc := resizeArr d.estInc new_capacity }

/-- Embedding of `alloc_ili_input` (src/mcmc_io.c): three fresh arrays of
`reserve_size` uninitialized slots, size zeroed. -/
def alloc_ili_input (reserve_size : Nat) : ILIinput :=
  { size := 0,
    year := List.replicate reserve_size none,
    week := List.replicate reserve_size none,
    estInc := List.replicate reserve_size none }

/-- The `ILIinputAux` struct (src/mcmc_io.c): parse-cursor state shared by the
two libcsv callbacks.  `err_field` is `none` while the C pointer is NULL. -/
structure ILIinputAux where
  data : ILIinput
  capacity : Nat
  curr_row : Nat
  curr_col : Nat
  err_status : Nat
  err_field : Option (List Char)
deriving DecidableEq

/-- Embedding of the field callback `cb1` (src/mcmc_io.c).  The tokenizer
delivers the field text `s` together with its length, so `len` is
`s.length`.  The `switch` on the 1-based column either ignores the field
(columns 1 and anything past 4), or parses it and stores the result at index
`size` of the matching array; on a parse error the offending text is copied
into `err_field` and the column cursor is not advanced. -/
def cb1 (s : List Char) (a : ILIinputAux) : ILIinputAux :=
  if a.curr_row = 1 then a
  else if a.err_status ≠ 0 then a
  else
    let st :=
      if a.curr_col = 2 then
        let r := parse_int_error_check s a.err_status s.length
        { a with
          data := { a.data with year := a.data.year.set a.data.size (some r.1) },
          err_status := r.2 }
      else if a.curr_col = 3 then
        let r := parse_int_error_check s a.err_status s.length
        { a with
          data := { a.data with week := a.data.week.set a.data.size (some r.1) },
          err_status := r.2 }
      else if a.curr_col = 4 then
        let r := parse_int_error_check s a.err_status s.length
        { a with
          data := { a.data with estInc := a.data.estInc.set a.data.size (some r.1) },
          err_status := r.2 }
      else a
    if st.err_status ≠ 0 then { st with err_field := some s }
    else { st with curr_col := st.curr_col + 1 }

/-- Embedding of the record callback `cb2` (src/mcmc_io.c).  With no prior
error: flag `InsufficientFields` (code 4) when a non-header row closed with
fewer than `FILE_NUM_COLS = 4` fields, reset the column cursor, advance the
row counter (the header row stops there), increment the logical size and
double the capacity when the size reaches it.  `curr_col` is at least 1 in
every reachable state (columns are 1-based), so `curr_col - 1` is the plain
subtraction. -/
def cb2 (a : ILIinputAux) : ILIinputAux :=
  if a.err_status ≠ 0 then a
  else
    let a1 :=
      if a.curr_col - 1 < 4 ∧ 1 < a.curr_row then
        { a with err_status := 4, err_field := some [] }
      else a
    let a2 := { a1 with curr_col := 1 }
    if a2.curr_row = 1 then { a2 with curr_row := 2 }
    else
      let a3 := { a2 with
        curr_row := a2.curr_row + 1,
        data := { a2.data with size := a2.data.size + 1 } }
      if a3.capacity ≤ a3.data.size then
        { a3 with
          capacity := 2 * a3.capacity,
          data := realloc_ili_input a3.data (2 * a3.capacity) }
      else a3

/-- The `ColumnInputAux` struct (src/mcmc_io.c) together with the caller's
`*vec_p` / `*vsize_p` it points into. -/
structure ColumnInputAux where
  size : Nat
  vec : List (Option ℚ)
  capacity : Nat
  curr_row : Nat
  curr_col : Nat
  err_status : Nat
  err_field : Option (List Char)
deriving DecidableEq

/-- Embedding of the field callback `contacts_cb1` (src/mcmc_io.c): same shape
as `cb1` with a single data column (column 2) of doubles. -/
def contacts_cb1 (s : List Char) (a : ColumnInputAux) : ColumnInputAux :=
  if a.curr_row = 1 then a
  else if a.err_status ≠ 0 then a
  else
    let st :=
      if a.curr_col = 2 then
        let r := parse_double_error_check s a.err_status s.length
        { a with vec := a.vec.set a.size (some r.1), err_status := r.2 }
      else a
    if st.err_status ≠ 0 then { st with err_field := some s }
    else { st with curr_col := st.curr_col + 1 }

/-- Embedding of the record callback `contacts_cb2` (src/mcmc_io.c): schema
width 2 instead of 4, one array instead of three. -/
def contacts_cb2 (a : ColumnInputAux) : ColumnInputAux :=
  if a.err_status ≠ 0 then a
  else
    let a1 :=
      if a.curr_col - 1 < 2 ∧ 1 < a.curr_row then
        { a with err_status := 4, err_field := some [] }
      else a
    let a2 := { a1 with curr_col := 1 }
    if a2.curr_row = 1 then { a2 with curr_row := 2 }
    else
      let a3 := { a2 with curr_row := a2.curr_row + 1, size := a2.size + 1 }
      if a3.capacity ≤ a3.size then
        { a3 with capacity := 2 * a3.capacity, vec := resizeArr a3.vec (2 * a3.capacity) }
      else a3

/-- One tokenizer event: a completed field or a record (line) boundary. -/
inductive Ev where
  | field : List Char → Ev
  | record : Ev
deriving DecidableEq

/-- Dispatch one libcsv event to the ILI callbacks. -/
def stepILI (e : Ev) (a : ILIinputAux) : ILIinputAux :=
  match e with
  | Ev.field s => cb1 s a
  | Ev.record => cb2 a

/-- Feed a sequence of tokenizer events to the ILI callbacks. -/
def runILI : List Ev → ILIinputAux → ILIinputAux
  | [], a => a
  | e :: t, a => runILI t (stepILI e a)

/-- Dispatch one libcsv event to the contacts callbacks. -/
def stepCol (e : Ev) (a : ColumnInputAux) : ColumnInputAux :=
  match e with
  | Ev.field s => contacts_cb1 s a
  | Ev.record => contacts_cb2 a

/-- Feed a sequence of tokenizer events to the contacts callbacks. -/
def runCol : List Ev → ColumnInputAux → ColumnInputAux
  | [], a => a
  | e :: t, a => runCol t (stepCol e a)

/-- Initial state built by `read_ili_csv` (src/mcmc_io.c): `reserve_size = 53`,
cursors at row 1 / column 1, no error. -/
def iliInit : ILIinputAux :=
  { data := alloc_ili_input 53,
    capacity := 53,
    curr_row := 1,
    curr_col := 1,
    err_status := 0,
    err_field := none }

/-- Embedding of `read_ili_csv` (src/mcmc_io.c) over the event stream the
tokenizer produces for the input bytes: run the callbacks, then shrink the
arrays to the logical size when the capacity exceeds it.  Feeding every event
is faithful even though the C driver breaks out of the chunk loop on the
first error: once `err_status` is nonzero both callbacks return without
touching any state.  The function's `int` result is `EXIT_FAILURE` exactly
when the final `err_status` is nonzero (tokenizer-level and I/O failures are
outside the model). -/
def read_ili_csv (evs : List Ev) : ILIinputAux :=
  let a := runILI evs iliInit
  if a.data.size < a.capacity then
    { a with data := realloc_ili_input a.data a.data.size }
  else a

/-- Initial state built by `read_csv_double_vector` (src/mcmc_io.c):
`reserve_size = 25`. -/
def colInit : ColumnInputAux :=
  { size := 0,
    vec := List.replicate 25 none,
    capacity := 25,
    curr_row := 1,
    curr_col := 1,
    err_status := 0,
    err_field := none }

/-- Embedding of `read_csv_double_vector` (src/mcmc_io.c): run the callbacks,
then shrink the vector to the logical size when the capacity exceeds it. -/
def read_csv_double_vector (evs : List Ev) : ColumnInputAux :=
  let a := runCol evs colInit
  if a.size < a.capacity then { a with vec := resizeArr a.vec a.size }
  else a

-- ------------------------------------------------------------------
-- Helper lemmas
-- ------------------------------------------------------------------

lemma resizeArr_length {α : Type} (l : List (Option α)) (n : Nat) :
    (resizeArr l n).length = n := by
  simp only [resizeArr, List.length_append, List.length_take, List.length_replicate]
  omega

lemma resizeArr_getElem?_lt {α : Type} (l : List (Option α)) (n i : Nat)
    (h1 : i < l.length) (h2 : l.length ≤ n) :
    (resizeArr l n)[i]? = l[i]? := by
  rw [resizeArr, List.take_of_length_le h2, List.getElem?_append_left h1]

lemma cb1_err_ne (s : List Char) (a : ILIinputAux) (h : a.err_status ≠ 0) :
    cb1 s a = a := by
  by_cases hr : a.curr_row = 1
  · simp [cb1, hr]
  · simp [cb1, hr, h]

lemma cb2_err_ne (a : ILIinputAux) (h : a.err_status ≠ 0) : cb2 a = a := by
  simp [cb2, h]

lemma stepILI_err_ne (e : Ev) (a : ILIinputAux) (h : a.err_status ≠ 0) :
    stepILI e a = a := by
  cases e with
  | field s => exact cb1_err_ne s a h
  | record => exact cb2_err_ne a h

lemma runILI_err_ne (evs : List Ev) (a : ILIinputAux) (h : a.err_status ≠ 0) :
    runILI evs a = a := by
  induction evs with
  | nil => rfl
  | cons e t ih => rw [runILI, stepILI_err_ne e a h, ih]

lemma contacts_cb1_err_ne (s : List Char) (a : ColumnInputAux) (h : a.err_status ≠ 0) :
    contacts_cb1 s a = a := by
  by_cases hr : a.curr_row = 1
  · simp [contacts_cb1, hr]
  · simp [contacts_cb1, hr, h]

lemma contacts_cb2_err_ne (a : ColumnInputAux) (h : a.err_status ≠ 0) :
    contacts_cb2 a = a := by
  simp [contacts_cb2, h]

lemma stepCol_err_ne (e : Ev) (a : ColumnInputAux) (h : a.err_status ≠ 0) :
    stepCol e a = a := by
  cases e with
  | field s => exact contacts_cb1_err_ne s a h
  | record => exact contacts_cb2_err_ne a h

lemma runCol_err_ne (evs : List Ev) (a : ColumnInputAux) (h : a.err_status ≠ 0) :
    runCol evs a = a := by
  induction evs with
  | nil => rfl
  | cons e t ih => rw [runCol, stepCol_err_ne e a h, ih]

/-- Reachability invariant of the ILI parse: the three arrays have exactly
`capacity` allocated cells and the logical size is strictly below it. -/
def iliInv (a : ILIinputAux) : Prop :=
  a.data.year.length = a.capacity ∧ a.data.week.length = a.capacity ∧
  a.data.estInc.length = a.capacity ∧ a.data.size < a.capacity

lemma cb1_shape (s : List Char) (a : ILIinputAux) :
    (cb1 s a).capacity = a.capacity ∧ (cb1 s a).data.size = a.data.size ∧
    (cb1 s a).data.year.length = a.data.year.length ∧
    (cb1 s a).data.week.length = a.data.week.length ∧
    (cb1 s a).data.estInc.length = a.data.estInc.length := by
  by_cases h1 : a.curr_row = 1
  · simp [cb1, h1]
  by_cases h2 : a.err_status ≠ 0
  · simp [cb1, h1, h2]
  by_cases hc2 : a.curr_col = 2
  · by_cases hp : (parse_int_error_check s a.err_status s.length).2 ≠ 0 <;>
      simp [cb1, h1, h2, hc2, hp, List.length_set]
  by_cases hc3 : a.curr_col = 3
  · by_cases hp : (parse_int_error_check s a.err_status s.length).2 ≠ 0 <;>
      simp [cb1, h1, h2, hc2, hc3, hp, List.length_set]
  by_cases hc4 : a.curr_col = 4
  · by_cases hp : (parse_int_error_check s a.err_status s.length).2 ≠ 0 <;>
      simp [cb1, h1, h2, hc2, hc3, hc4, hp, List.length_set]
  simp [cb1, h1, h2, hc2, hc3, hc4]

lemma cb1_inv (s : List Char) (a : ILIinputAux) (h : iliInv a) :
    iliInv (cb1 s a) := by
  obtain ⟨hy, hw, he, hs⟩ := h
  obtain ⟨c1, c2, c3, c4, c5⟩ := cb1_shape s a
  exact ⟨by rw [c3, c1, hy], by rw [c4, c1, hw], by rw [c5, c1, he], by rw [c2, c1]; exact hs⟩

lemma cb2_inv (a : ILIinputAux) (h : iliInv a) : iliInv (cb2 a) := by
  obtain ⟨hy, hw, he, hs⟩ := h
  by_cases h0 : a.err_status = 0
  case neg =>
    rw [cb2_err_ne a h0]
    exact ⟨hy, hw, he, hs⟩
  by_cases hins : a.curr_col - 1 < 4 ∧ 1 < a.curr_row <;>
  by_cases hh : a.curr_row = 1 <;>
  by_cases hg : a.capacity ≤ a.data.size + 1 <;>
    simp [iliInv, cb2, h0, hins, hh, hg, realloc_ili_input, resizeArr_length] <;>
    omega

lemma runILI_inv (evs : List Ev) (a : ILIinputAux) (h : iliInv a) :
    iliInv (runILI evs a) := by
  induction evs generalizing a with
  | nil => exact h
  | cons e t ih =>
    rw [runILI]
    apply ih
    cases e with
    | field s => exact cb1_inv s a h
    | record => exact cb2_inv a h

lemma iliInit_inv : iliInv iliInit := by
  refine ⟨?_, ?_, ?_, ?_⟩ <;> simp [iliInit, iliInv, alloc_ili_input]

/-- Reachability invariant of the contacts parse. -/
def colInv (a : ColumnInputAux) : Prop :=
  a.vec.length = a.capacity ∧ a.size < a.capacity

lemma contacts_cb1_shape (s : List Char) (a : ColumnInputAux) :
    (contacts_cb1 s a).capacity = a.capacity ∧ (contacts_cb1 s a).size = a.size ∧
    (contacts_cb1 s a).vec.length = a.vec.length := by
  by_cases h1 : a.curr_row = 1
  · simp [contacts_cb1, h1]
  by_cases h2 : a.err_status ≠ 0
  · simp [contacts_cb1, h1, h2]
  by_cases hc2 : a.curr_col = 2
  · by_cases hp : (parse_double_error_check s a.err_status s.length).2 ≠ 0 <;>
      simp [contacts_cb1, h1, h2, hc2, hp, List.length_set]
  simp [contacts_cb1, h1, h2, hc2]

lemma contacts_cb1_inv (s : List Char) (a : ColumnInputAux) (h : colInv a) :
    colInv (contacts_cb1 s a) := by
  obtain ⟨hv, hs⟩ := h
  obtain ⟨c1, c2, c3⟩ := contacts_cb1_shape s a
  exact ⟨by rw [c3, c1, hv], by rw [c2, c1]; exact hs⟩

lemma contacts_cb2_inv (a : ColumnInputAux) (h : colInv a) :
    colInv (contacts_cb2 a) := by
  obtain ⟨hv, hs⟩ := h
  by_cases h0 : a.err_status = 0
  case neg =>
    rw [contacts_cb2_err_ne a h0]
    exact ⟨hv, hs⟩
  by_cases hins : a.curr_col - 1 < 2 ∧ 1 < a.curr_row <;>
  by_cases hh : a.curr_row = 1 <;>
  by_cases hg : a.capacity ≤ a.size + 1 <;>
    simp [colInv, contacts_cb2, h0, hins, hh, hg, resizeArr_length] <;>
    omega

lemma runCol_inv (evs : List Ev) (a : ColumnInputAux) (h : colInv a) :
    colInv (runCol evs a) := by
  induction evs generalizing a with
  | nil => exact h
  | cons e t ih =>
    rw [runCol]
    apply ih
    cases e with
    | field s => exact contacts_cb1_inv s a h
    | record => exact contacts_cb2_inv a h

lemma colInit_inv : colInv colInit := by
  refine ⟨?_, ?_⟩ <;> simp [colInit, colInv]

-- ------------------------------------------------------------------
-- Claim theorems
-- ------------------------------------------------------------------

/-- C1 (evidence of the code defect): on the event stream of a file whose
header line is followed by one data row `0,2020,1` carrying only three
fields, `read_ili_csv` flags `InsufficientFields` (code 4) for that row, yet
the dataset it returns has logical size 1 even though zero rows were fully
validated: `cb2` increments `size` after setting the error, so the returned
`estInc` array exposes a cell no callback ever wrote (the spec and the
comment on the increment, "If line was valid", both say the size must count
only valid rows). -/
theorem read_ili_csv_counts_insufficient_row :
    (read_ili_csv
        [Ev.field ['i'], Ev.field ['y'], Ev.field ['w'], Ev.field ['e'], Ev.record,
         Ev.field ['0'], Ev.field ['2','0','2','0'], Ev.field ['1'], Ev.record]).err_status = 4 ∧
    (read_ili_csv
        [Ev.field ['i'], Ev.field ['y'], Ev.field ['w'], Ev.field ['e'], Ev.record,
         Ev.field ['0'], Ev.field ['2','0','2','0'], Ev.field ['1'], Ev.record]).data.size = 1 ∧
    (read_ili_csv
        [Ev.field ['i'], Ev.field ['y'], Ev.field ['w'], Ev.field ['e'], Ev.record,
         Ev.field ['0'], Ev.field ['2','0','2','0'], Ev.field ['1'], Ev.record]).data.estInc
      = [none] := by
  decide

/-- C2 counterexample: a zero-length field does NOT yield `InvalidFormat`.
`strtol`/`strtod` consume zero characters of an empty field, which equals the
expected length 0, so the full-length check passes, no error branch is taken
(the error slot keeps its incoming 0) and the converters return 0
successfully. -/
theorem parse_empty_field_not_invalid_format :
    (parse_int_error_check [] 0 0).2 ≠ 1 ∧ (parse_double_error_check [] 0 0).2 ≠ 1 ∧
    parse_int_error_check [] 0 0 = (0, 0) ∧ parse_double_error_check [] 0 0 = (0, 0) := by
  decide

/-- C2 amended: for every field of zero length routed to a data column, both
converters convert successfully: the error slot is left unchanged (no error
is reported) and the returned value is 0 (resp. 0.0). -/
theorem parse_empty_field_succeeds (errIn : Nat) :
    parse_int_error_check [] errIn 0 = (0, errIn) ∧
    parse_double_error_check [] errIn 0 = (0, errIn) := by
  constructor <;> rfl

/-- C6: the integer converter maps the field text `"2147483648"` (one past
the 32-bit signed maximum) to `OutOfRange` (code 2) with return value 0, and
`"12a"` to `InvalidFormat` (code 1) because `strtol` consumes 2 of its 3
characters. -/
theorem parse_int_boundary_cases :
    parse_int_error_check "2147483648".toList 0 10 = (0, 2) ∧
    parse_int_error_check "12a".toList 0 3 = (0, 1) := by
  decide

/-- C8: once `err_status` is nonzero, every later field event and record
event of either pipeline is a complete no-op: the whole parser state
(dataset arrays, logical size, cursors, error fields) is returned
unchanged, for single events and for arbitrary event sequences. -/
theorem sticky_error_noop (s : List Char) (evs : List Ev)
    (a : ILIinputAux) (b : ColumnInputAux)
    (ha : a.err_status ≠ 0) (hb : b.err_status ≠ 0) :
    cb1 s a = a ∧ cb2 a = a ∧ runILI evs a = a ∧
    contacts_cb1 s b = b ∧ contacts_cb2 b = b ∧ runCol evs b = b :=
  ⟨cb1_err_ne s a ha, cb2_err_ne a ha, runILI_err_ne evs a ha,
   contacts_cb1_err_ne s b hb, contacts_cb2_err_ne b hb, runCol_err_ne evs b hb⟩

/-- Sample ILI state with a pending error, for the C8 witness. -/
def wC8a : ILIinputAux :=
  { data := { size := 0, year := [none], week := [none], estInc := [none] },
    capacity := 1, curr_row := 2, curr_col := 2, err_status := 1,
    err_field := some ['x'] }

/-- Sample contacts state with a pending error, for the C8 witness. -/
def wC8b : ColumnInputAux :=
  { size := 0, vec := [none], capacity := 1, curr_row := 2, curr_col := 2,
    err_status := 1, err_field := some ['x'] }

theorem sticky_error_noop_witness :
    wC8a.err_status ≠ 0 ∧ wC8b.err_status ≠ 0 ∧
    cb1 ['x'] wC8a = wC8a ∧ cb2 wC8a = wC8a ∧
    runILI [Ev.record, Ev.field ['7']] wC8a = wC8a ∧
    contacts_cb1 ['x'] wC8b = wC8b ∧ contacts_cb2 wC8b = wC8b ∧
    runCol [Ev.record, Ev.field ['7']] wC8b = wC8b := by
  have h := sticky_error_noop ['x'] [Ev.record, Ev.field ['7']] wC8a wC8b
    (by decide) (by decide)
  exact ⟨by decide, by decide, h.1, h.2.1, h.2.2.1, h.2.2.2.1, h.2.2.2.2.1,
    h.2.2.2.2.2⟩

/-- C3: when a non-header record closes while fewer than 4 fields were seen
(`curr_col - 1 < 4`) and no error is pending, the row validator `cb2` sets
`err_status` to `InsufficientFields` (code 4) with the empty string as the
offending-field placeholder; the row counter moves one past the offending
row (the driver's diagnostic names it as the "previous line"), and no later
event changes the state again: the error is sticky, and the driver stops
feeding chunks on the first nonzero status. -/
theorem cb2_insufficient_fields_error (a : ILIinputAux)
    (h0 : a.err_status = 0) (hr : 1 < a.curr_row) (hc : a.curr_col - 1 < 4) :
    (cb2 a).err_status = 4 ∧ (cb2 a).err_field = some [] ∧
    (cb2 a).curr_row = a.curr_row + 1 ∧
    ∀ evs, runILI evs (cb2 a) = cb2 a := by
  have hins : a.curr_col - 1 < 4 ∧ 1 < a.curr_row := ⟨hc, hr⟩
  have hh : ¬ a.curr_row = 1 := by omega
  have e4 : (cb2 a).err_status = 4 := by
    by_cases hg : a.capacity ≤ a.data.size + 1 <;>
      simp [cb2, h0, hins, hh, hg]
  refine ⟨e4, ?_, ?_, fun evs => runILI_err_ne evs (cb2 a) (by rw [e4]; omega)⟩
  · by_cases hg : a.capacity ≤ a.data.size + 1 <;>
      simp [cb2, h0, hins, hh, hg]
  · by_cases hg : a.capacity ≤ a.data.size + 1 <;>
      simp [cb2, h0, hins, hh, hg]

/-- Sample state for the C3 witness: a data row (row 2) that closed after
three fields (`curr_col = 4`). -/
def wC3 : ILIinputAux :=
  { data := { size := 0, year := [none], week := [none], estInc := [none] },
    capacity := 1, curr_row := 2, curr_col := 4, err_status := 0,
    err_field := none }

theorem cb2_insufficient_fields_error_witness :
    (cb2 wC3).err_status = 4 ∧ (cb2 wC3).err_field = some [] ∧
    (cb2 wC3).curr_row = 3 ∧
    runILI [Ev.field ['7'], Ev.record] (cb2 wC3) = cb2 wC3 := by
  have h := cb2_insufficient_fields_error wC3 rfl (by decide) (by decide)
  exact ⟨h.1, h.2.1, h.2.2.1, h.2.2.2 [Ev.field ['7'], Ev.record]⟩

/-- C7: on a data row with no pending error, every field in a column past
the schema width 4 is silently ignored by `cb1`: no error is raised, no
array cell is written, and the only state change is the column cursor
advancing by one; the record callback then accepts the row (no error, size
incremented), so the extra trailing columns are discarded. -/
theorem extra_columns_silently_ignored (s : List Char) (a : ILIinputAux)
    (h0 : a.err_status = 0) (hr : 1 < a.curr_row) (hc : 5 ≤ a.curr_col) :
    cb1 s a = { a with curr_col := a.curr_col + 1 } ∧
    (cb2 a).err_status = 0 ∧ (cb2 a).data.size = a.data.size + 1 := by
  have hh : ¬ a.curr_row = 1 := by omega
  have h2 : ¬ a.curr_col = 2 := by omega
  have h3 : ¬ a.curr_col = 3 := by omega
  have h4 : ¬ a.curr_col = 4 := by omega
  have hins : ¬ (a.curr_col - 1 < 4 ∧ 1 < a.curr_row) := by omega
  refine ⟨?_, ?_, ?_⟩
  · simp [cb1, hh, h0, h2, h3, h4]
  · by_cases hg : a.capacity ≤ a.data.size + 1 <;>
      simp [cb2, h0, hins, hh, hg]
  · by_cases hg : a.capacity ≤ a.data.size + 1 <;>
      simp [cb2, h0, hins, hh, hg, realloc_ili_input]

/-- Sample state for the C7 witness: cursor on the fifth field of a data
row. -/
def wC7 : ILIinputAux :=
  { data := { size := 0, year := [none, none], week := [none, none],
              estInc := [none, none] },
    capacity := 2, curr_row := 2, curr_col := 5, err_status := 0,
    err_field := none }

theorem extra_columns_silently_ignored_witness :
    cb1 ['9'] wC7 = { wC7 with curr_col := 6 } ∧
    (cb2 wC7).err_status = 0 ∧ (cb2 wC7).data.size = 1 := by
  have h := extra_columns_silently_ignored ['9'] wC7 rfl (by decide) (by decide)
  exact ⟨h.1, h.2.1, h.2.2⟩

/-- C9: at every externally observable point of the fixed-schema pipeline —
after allocation (`evs = []`), after any prefix of the event stream (hence
after every growth), and at return from `read_ili_csv` (hence after
shrink-to-fit) — the three arrays `year`, `week`, `estInc` have equal
allocated length, and that length is at least the logical size. -/
theorem ili_arrays_equal_length (evs : List Ev) :
    ((runILI evs iliInit).data.year.length = (runILI evs iliInit).data.week.length ∧
     (runILI evs iliInit).data.week.length = (runILI evs iliInit).data.estInc.length ∧
     (runILI evs iliInit).data.size ≤ (runILI evs iliInit).data.year.length) ∧
    ((read_ili_csv evs).data.year.length = (read_ili_csv evs).data.week.length ∧
     (read_ili_csv evs).data.week.length = (read_ili_csv evs).data.estInc.length ∧
     (read_ili_csv evs).data.size ≤ (read_ili_csv evs).data.year.length) := by
  obtain ⟨hy, hw, he, hs⟩ := runILI_inv evs iliInit iliInit_inv
  constructor
  · exact ⟨by rw [hy, hw], by rw [hw, he], by rw [hy]; omega⟩
  · unfold read_ili_csv
    rw [if_pos hs]
    simp [realloc_ili_input, resizeArr_length]

theorem ili_arrays_equal_length_witness :
    (((runILI [Ev.record] iliInit).data.year.length =
        (runILI [Ev.record] iliInit).data.week.length ∧
      (runILI [Ev.record] iliInit).data.week.length =
        (runILI [Ev.record] iliInit).data.estInc.length ∧
      (runILI [Ev.record] iliInit).data.size ≤
        (runILI [Ev.record] iliInit).data.year.length) ∧
     ((read_ili_csv [Ev.record]).data.year.length =
        (read_ili_csv [Ev.record]).data.week.length ∧
      (read_ili_csv [Ev.record]).data.week.length =
        (read_ili_csv [Ev.record]).data.estInc.length ∧
      (read_ili_csv [Ev.record]).data.size ≤
        (read_ili_csv [Ev.record]).data.year.length)) :=
  ili_arrays_equal_length [Ev.record]

/-- C5: on clean completion (final `err_status = 0`) both drivers shrink
their accumulator arrays so that the allocated length equals exactly the
final logical size before returning. -/
theorem shrink_to_fit_clean (evs evs' : List Ev) :
    ((read_ili_csv evs).err_status = 0 →
      (read_ili_csv evs).data.year.length = (read_ili_csv evs).data.size ∧
      (read_ili_csv evs).data.week.length = (read_ili_csv evs).data.size ∧
      (read_ili_csv evs).data.estInc.length = (read_ili_csv evs).data.size) ∧
    ((read_csv_double_vector evs').err_status = 0 →
      (read_csv_double_vector evs').vec.length = (read_csv_double_vector evs').size) := by
  obtain ⟨hy, hw, he, hs⟩ := runILI_inv evs iliInit iliInit_inv
  obtain ⟨hv, hs'⟩ := runCol_inv evs' colInit colInit_inv
  constructor
  · intro _
    unfold read_ili_csv
    rw [if_pos hs]
    simp [realloc_ili_input, resizeArr_length]
  · intro _
    unfold read_csv_double_vector
    rw [if_pos hs']
    simp [resizeArr_length]

theorem shrink_to_fit_clean_witness :
    (read_ili_csv []).err_status = 0 ∧
    (read_ili_csv []).data.year.length = (read_ili_csv []).data.size ∧
    (read_csv_double_vector []).err_status = 0 ∧
    (read_csv_double_vector []).vec.length = (read_csv_double_vector []).size := by
  have h := shrink_to_fit_clean [] []
  exact ⟨by decide, (h.1 (by decide)).1, by decide, h.2 (by decide)⟩

/-- C4: under the reachable-state invariant (arrays allocated to `capacity`,
`size < capacity`), a record event on a data row grows the accumulator
exactly when the incremented logical size reaches the current capacity; the
new capacity is then exactly double the old one (otherwise the capacity is
unchanged), and every array index written before the event (all `i < size`)
still holds the same value after the reallocation. -/
theorem cb2_growth_doubles_preserves (a : ILIinputAux)
    (h0 : a.err_status = 0) (hr : 1 < a.curr_row)
    (hy : a.data.year.length = a.capacity) (hw : a.data.week.length = a.capacity)
    (he : a.data.estInc.length = a.capacity) (hs : a.data.size < a.capacity) :
    (a.data.size + 1 = a.capacity → (cb2 a).capacity = 2 * a.capacity) ∧
    (a.data.size + 1 < a.capacity → (cb2 a).capacity = a.capacity) ∧
    ∀ i, i < a.data.size →
      (cb2 a).data.year[i]? = a.data.year[i]? ∧
      (cb2 a).data.week[i]? = a.data.week[i]? ∧
      (cb2 a).data.estInc[i]? = a.data.estInc[i]? := by
  have hh : ¬ a.curr_row = 1 := by omega
  refine ⟨?_, ?_, ?_⟩
  · intro hq
    have hg : a.capacity ≤ a.data.size + 1 := by omega
    by_cases hins : a.curr_col - 1 < 4 ∧ 1 < a.curr_row <;>
      simp [cb2, h0, hins, hh, hg]
  · intro hq
    have hg : ¬ a.capacity ≤ a.data.size + 1 := by omega
    by_cases hins : a.curr_col - 1 < 4 ∧ 1 < a.curr_row <;>
      simp [cb2, h0, hins, hh, hg]
  · intro i hi
    by_cases hg : a.capacity ≤ a.data.size + 1 <;>
    by_cases hins : a.curr_col - 1 < 4 ∧ 1 < a.curr_row <;>
      simp [cb2, h0, hins, hh, hg, realloc_ili_input] <;>
      refine ⟨?_, ?_, ?_⟩ <;>
      apply resizeArr_getElem?_lt <;>
      omega

/-- Sample state for the C4 witness: one written row, capacity 2, about to
be filled by the closing record event. -/
def wC4 : ILIinputAux :=
  { data := { size := 1, year := [some 7, none], week := [some 8, none],
              estInc := [some 9, none] },
    capacity := 2, curr_row := 3, curr_col := 5, err_status := 0,
    err_field := none }

theorem cb2_growth_doubles_preserves_witness :
    (cb2 wC4).capacity = 2 * wC4.capacity ∧
    (cb2 wC4).data.year[0]? = some (some 7) ∧
    (cb2 wC4).data.week[0]? = some (some 8) ∧
    (cb2 wC4).data.estInc[0]? = some (some 9) := by
  have h := cb2_growth_doubles_preserves wC4 rfl (by decide) rfl rfl rfl (by decide)
  have hp := h.2.2 0 (by decide)
  refine ⟨h.1 rfl, ?_, ?_, ?_⟩
  · rw [hp.1]; decide
  · rw [hp.2.1]; decide
  · rw [hp.2.2]; decide

lemma parse_int_error_val_zero (s : List Char) (len : Nat)
    (h : (parse_int_error_check s 0 len).2 ≠ 0) :
    (parse_int_error_check s 0 len).1 = 0 := by
  by_cases h1 : (strtol s).consumed ≠ len
  · simp [parse_int_error_check, h1]
  · by_cases h2 : (strtol s).rangeErr ∨ (strtol s).value < INT_MIN ∨
        INT_MAX < (strtol s).value
    · simp [parse_int_error_check, h1, h2]
    · exfalso
      apply h
      simp [parse_int_error_check, h1, h2]

lemma parse_double_error_val_zero (s : List Char) (len : Nat)
    (h : (parse_double_error_check s 0 len).2 ≠ 0) :
    (parse_double_error_check s 0 len).1 = 0 := by
  by_cases h1 : (strtod s).consumed ≠ len
  · simp [parse_double_error_check, h1]
  · by_cases h2 : (strtod s).rangeErr = true
    · simp [parse_double_error_check, h1, h2]
    · exfalso
      apply h
      simp [parse_double_error_check, h1, h2]

/-- C10: whenever a converter reports any error kind it returns 0 (resp.
0.0), and because the field callbacks assign the converter's return value to
the target array cell at the current logical row index before inspecting the
error slot, that 0 — never the partially parsed numeric prefix — is what
sits in the cell when the error becomes observable (together with the
offending text captured in `err_field`). -/
theorem converter_error_stores_zero (s : List Char) (len : Nat)
    (a : ILIinputAux) (b : ColumnInputAux)
    (h0 : a.err_status = 0) (hr : 1 < a.curr_row)
    (hb0 : b.err_status = 0) (hbr : 1 < b.curr_row) :
    ((parse_int_error_check s 0 len).2 ≠ 0 → (parse_int_error_check s 0 len).1 = 0) ∧
    ((parse_double_error_check s 0 len).2 ≠ 0 → (parse_double_error_check s 0 len).1 = 0) ∧
    (a.curr_col = 2 → (parse_int_error_check s 0 s.length).2 ≠ 0 →
      a.data.size < a.data.year.length →
      (cb1 s a).data.year[a.data.size]? = some (some 0) ∧
      (cb1 s a).err_status = (parse_int_error_check s 0 s.length).2 ∧
      (cb1 s a).err_field = some s) ∧
    (a.curr_col = 3 → (parse_int_error_check s 0 s.length).2 ≠ 0 →
      a.data.size < a.data.week.length →
      (cb1 s a).data.week[a.data.size]? = some (some 0) ∧
      (cb1 s a).err_status = (parse_int_error_check s 0 s.length).2 ∧
      (cb1 s a).err_field = some s) ∧
    (a.curr_col = 4 → (parse_int_error_check s 0 s.length).2 ≠ 0 →
      a.data.size < a.data.estInc.length →
      (cb1 s a).data.estInc[a.data.size]? = some (some 0) ∧
      (cb1 s a).err_status = (parse_int_error_check s 0 s.length).2 ∧
      (cb1 s a).err_field = some s) ∧
    (b.curr_col = 2 → (parse_double_error_check s 0 s.length).2 ≠ 0 →
      b.size < b.vec.length →
      (contacts_cb1 s b).vec[b.size]? = some (some 0) ∧
      (contacts_cb1 s b).err_status = (parse_double_error_check s 0 s.length).2 ∧
      (contacts_cb1 s b).err_field = some s) := by
  have hh : ¬ a.curr_row = 1 := by omega
  have hbh : ¬ b.curr_row = 1 := by omega
  refine ⟨parse_int_error_val_zero s len, parse_double_error_val_zero s len,
    ?_, ?_, ?_, ?_⟩
  · intro hc hp hlen
    have hval := parse_int_error_val_zero s s.length hp
    refine ⟨?_, ?_, ?_⟩ <;>
      simp [cb1, hh, h0, hc, hp, hval, List.getElem?_set_eq_of_lt, hlen]
  · intro hc hp hlen
    have hval := parse_int_error_val_zero s s.length hp
    have hc2 : ¬ a.curr_col = 2 := by omega
    refine ⟨?_, ?_, ?_⟩ <;>
      simp [cb1, hh, h0, hc, hc2, hp, hval, List.getElem?_set_eq_of_lt, hlen]
  · intro hc hp hlen
    have hval := parse_int_error_val_zero s s.length hp
    have hc2 : ¬ a.curr_col = 2 := by omega
    have hc3 : ¬ a.curr_col = 3 := by omega
    refine ⟨?_, ?_, ?_⟩ <;>
      simp [cb1, hh, h0, hc, hc2, hc3, hp, hval, List.getElem?_set_eq_of_lt, hlen]
  · intro hc hp hlen
    have hval := parse_double_error_val_zero s s.length hp
    refine ⟨?_, ?_, ?_⟩ <;>
      simp [contacts_cb1, hbh, hb0, hc, hp, hval, List.getElem?_set_eq_of_lt, hlen]

/-- Sample ILI state for the C10 witness: cursor on the year column of a
data row with an empty accumulator row pending. -/
def wC10a : ILIinputAux :=
  { data := { size := 0, year := [none], week := [none], estInc := [none] },
    capacity := 1, curr_row := 2, curr_col := 2, err_status := 0,
    err_field := none }

/-- Sample contacts state for the C10 witness. -/
def wC10b : ColumnInputAux :=
  { size := 0, vec := [none], capacity := 1, curr_row := 2, curr_col := 2,
    err_status := 0, err_field := none }

theorem converter_error_stores_zero_witness :
    (parse_int_error_check "12a".toList 0 3).2 ≠ 0 ∧
    (parse_int_error_check "12a".toList 0 3).1 = 0 ∧
    (cb1 "12a".toList wC10a).data.year[0]? = some (some 0) ∧
    (cb1 "12a".toList wC10a).err_status = 1 ∧
    (cb1 "12a".toList wC10a).err_field = some "12a".toList ∧
    (contacts_cb1 "12a".toList wC10b).vec[0]? = some (some 0) ∧
    (contacts_cb1 "12a".toList wC10b).err_status = 1 := by
  have h := converter_error_stores_zero "12a".toList 3 wC10a wC10b rfl
    (by decide) rfl (by decide)
  have hy := h.2.2.1 rfl (by decide) (by decide)
  have hv := h.2.2.2.2.2 rfl (by decide) (by decide)
  refine ⟨by decide, h.1 (by decide), hy.1, ?_, hy.2.2, hv.1, ?_⟩
  · rw [hy.2.1]; decide
  · rw [hv.2.1]; decide

theorem parse_empty_field_succeeds_witness :
    parse_int_error_check [] 3 0 = (0, 3) ∧
    parse_double_error_check [] 3 0 = (0, 3) :=
  parse_empty_field_succeeds 3
